import Mathlib

/-!
A verification development for the cxxlox bytecode virtual machine.

The C++ sources are shallowly embedded: heap pointers become indices
(`ObjId`) into a list of objects, the value stack becomes a `List Value`
whose index is the stack slot (head = bottom, as `stack[0]` in the source),
`double` is modelled by `Int` (no claim here depends on floating-point
rounding), and C++ assertion failures (`CL_ASSERT`, active in debug builds)
become an explicit `fault` outcome.  Each definition is translated from the
named source function; deviations of the source from the book-style
interpreter are kept as written.
-/

namespace Cxxlox

/-- Heap object identity: stands in for a C++ `Obj*` pointer.  Pointer
equality becomes equality of ids. -/
abbrev ObjId := Nat

/-- `ObjType` from object.hpp. -/
inductive ObjType where
  | BoundMethod
  | Class
  | Closure
  | Function
  | Instance
  | Native
  | String
  | Upvalue
deriving DecidableEq, Repr

/-- `Value` from value.hpp: the tagged union of `Nil`, `Bool`, `Number` and
`Obj`.  The `Number` payload (a C++ `double`) is modelled by `Int`. -/
inductive Value where
  | Nil
  | Bool (b : Bool)
  | Number (n : Int)
  | Obj (id : ObjId)
deriving DecidableEq, Repr

/-- An `ObjString*` used as a hash-table key: the pointer identity plus the
precomputed hash the C++ key object carries (`key->hash`). -/
structure ObjStringRef where
  id : ObjId
  hash : Nat
deriving DecidableEq, Repr

/-- `Entry` from table.hpp: `key == nullptr` becomes `key = none`. -/
structure Entry where
  key : Option ObjStringRef := none
  value : Value := Value.Nil
deriving DecidableEq, Repr

instance : Inhabited Entry := ⟨{}⟩

/-- `Entry::isTombstone` (table.cpp): a null key with a non-nil value. -/
def Entry.isTombstone (e : Entry) : Bool :=
  e.key.isNone && !(e.value == Value.Nil)

/-- `Table` from table.hpp.  `entries` has length `capacity` by
construction. -/
structure Table where
  count : Nat
  capacity : Nat
  entries : List Entry
deriving DecidableEq, Repr

/-- A default-constructed `Table` (table.cpp constructor). -/
def Table.empty : Table := ⟨0, 0, []⟩

/-- `growCapacity` from common.cpp: minimum 8, then doubling. -/
def growCapacity (previousCapacity : Nat) : Nat :=
  if previousCapacity < 8 then 8 else previousCapacity * 2

/-- The probe loop of `Table::findEntry` (table.cpp 225-259): linear probing
from `hash % capacity`, remembering the first tombstone, stopping at a truly
empty slot.  The C++ loop runs forever when neither the key nor an empty
slot exists; `fuel = capacity` visits every slot once, and exhaustion
returns `none` (the unreachable `CL_FATAL` branch). -/
def findEntryLoop (entries : List Entry) (capacity : Nat) (key : ObjStringRef) :
    Nat → Option Nat → Nat → Option Nat
  | _, _, 0 => none
  | index, tombstone, fuel + 1 =>
    let e := (entries.get? index).getD {}
    match e.key with
    | none =>
      if !e.isTombstone then
        some (tombstone.getD index)
      else
        findEntryLoop entries capacity key ((index + 1) % capacity)
          (match tombstone with | some t => some t | none => some index) fuel
    | some k =>
      if k.id = key.id then
        some index
      else
        findEntryLoop entries capacity key ((index + 1) % capacity) tombstone fuel

/-- `Table::findEntry` applied to a table's own entries. -/
def Table.findEntry (t : Table) (key : ObjStringRef) : Option Nat :=
  findEntryLoop t.entries t.capacity key (key.hash % t.capacity) none t.capacity

/-- `Table::adjustCapacity` (table.cpp 195-223): grow, reinsert every entry
with a non-null key (dropping tombstones), recount. -/
def Table.adjustCapacity (t : Table) : Table :=
  let newCapacity := growCapacity t.capacity
  let start : List Entry × Nat := (List.replicate newCapacity {}, 0)
  let copied := t.entries.foldl (fun acc src =>
    match src.key with
    | none => acc
    | some k =>
      match findEntryLoop acc.1 newCapacity k (k.hash % newCapacity) none newCapacity with
      | none => acc
      | some i => (acc.1.set i ⟨some k, src.value⟩, acc.2 + 1)) start
  ⟨copied.2, newCapacity, copied.1⟩

/-- The load-factor test of `Table::set`: `count_ + 1 >= capacity_ * 0.75`.
The C++ comparison is on `double`s; for the magnitudes involved (`int32_t`
counts) it is exact and equals `4 * (count + 1) >= 3 * capacity`. -/
def Table.needsGrowth (t : Table) : Bool :=
  4 * (t.count + 1) ≥ 3 * t.capacity

/-- `Table::set` (table.cpp 70-89).  Returns `(isNewKey, table)`. -/
def Table.set (t : Table) (key : ObjStringRef) (value : Value) : Bool × Table :=
  let t := if t.needsGrowth then t.adjustCapacity else t
  match t.findEntry key with
  | none => (false, t)
  | some i =>
    let e := (t.entries.get? i).getD {}
    let isNewKey := e.key.isNone && !e.isTombstone
    (isNewKey,
      { t with
        entries := t.entries.set i ⟨some key, value⟩
        count := if isNewKey then t.count + 1 else t.count })

/-- `Table::get` (table.cpp 91-104): `none` models returning `false`. -/
def Table.get (t : Table) (key : ObjStringRef) : Option Value :=
  if t.count = 0 then none
  else
    match t.findEntry key with
    | none => none
    | some i =>
      let e := (t.entries.get? i).getD {}
      match e.key with
      | none => none
      | some _ => some e.value

/-- `Table::remove` (table.cpp 106-119): install a tombstone
(`key = nullptr`, `value = Bool(true)`). -/
def Table.remove (t : Table) (key : ObjStringRef) : Bool × Table :=
  if t.count = 0 then (false, t)
  else
    match t.findEntry key with
    | none => (false, t)
    | some i =>
      let e := (t.entries.get? i).getD {}
      if e.key.isNone then (false, t)
      else (true, { t with entries := t.entries.set i ⟨none, Value.Bool true⟩ })

/-- `Table::addAll` (table.cpp 121-129), as written in the source: the loop
runs over indices `0 ≤ i < other.count_` of the entry array. -/
def Table.addAll (t : Table) (other : Table) : Table :=
  (List.range other.count).foldl (fun acc i =>
    let e := (other.entries.get? i).getD {}
    match e.key with
    | none => acc
    | some k => (acc.set k e.value).2) t

/-- `Table::removeUnmarked` (table.cpp 184-192): remove every entry whose
key object is unmarked.  `isMarked` reads the key object's mark bit. -/
def Table.removeUnmarked (t : Table) (isMarked : ObjId → Bool) : Table :=
  (List.range t.capacity).foldl (fun acc i =>
    let e := (acc.entries.get? i).getD {}
    match e.key with
    | none => acc
    | some k => if !isMarked k.id then (acc.remove k).2 else acc) t

/-- `hashString` (object.cpp 168-178): 32-bit FNV-1a. -/
def hashString (chars : List Char) : Nat :=
  chars.foldl (fun h c => ((h ^^^ c.toNat) * 16777619) % 2 ^ 32) 2166136261

/-- The heap object variants of object.hpp.  Payloads keep the fields the
source structs carry; GC bookkeeping (`isMarked`, `next`) lives in the GC
model below. -/
inductive Obj where
  | objString (chars : List Char) (hash : Nat)
  | objFunction (arity upvalueCount : Nat) (name : Option ObjId)
  | objClosure (function : ObjId) (upvalues : List ObjId)
  | objClass (name : ObjId) (methods : Table)
  | objInstance (klass : ObjId) (fields : Table)
  | objBoundMethod (receiver : Value) (method : ObjId)
  | objNative (function : Nat)
  | objUpvalue (location : Option Nat) (closed : Value)
deriving DecidableEq, Repr

/-- The `Obj::type` tag of each variant. -/
def Obj.typeOf : Obj → ObjType
  | .objString .. => .String
  | .objFunction .. => .Function
  | .objClosure .. => .Closure
  | .objClass .. => .Class
  | .objInstance .. => .Instance
  | .objBoundMethod .. => .BoundMethod
  | .objNative .. => .Native
  | .objUpvalue .. => .Upvalue

/-- A heap: object ids are indices into this list. -/
abbrev Heap := List Obj

/-- `Value::operator==` (value.cpp 122-148), written as the source is: a
type-tag mismatch is `false`; `Bool`/`Number`/`Nil` compare by contents;
in the `Obj` case any operand that is not a `String` makes the comparison
`false`, and two `String`s compare by length and byte contents. -/
def valueEq (heap : Heap) (a b : Value) : Bool :=
  match a, b with
  | .Bool x, .Bool y => x == y
  | .Number x, .Number y => x == y
  | .Nil, .Nil => true
  | .Obj i, .Obj j =>
    match heap.get? i, heap.get? j with
    | some oi, some oj =>
      if oi.typeOf != ObjType.String || oj.typeOf != ObjType.String then false
      else
        match oi, oj with
        | .objString ci _, .objString cj _ => ci.length == cj.length && ci == cj
        | _, _ => false
    | _, _ => false
  | _, _ => false

/-!
## Value stack

The stack is a `List Value` indexed bottom-up, matching `stack[i]` in
vm.hpp; `stackTop` is the list's length.
-/

/-- `VM::push` (vm.cpp 125-133). -/
def stackPush (s : List Value) (v : Value) : List Value := s ++ [v]

/-- `VM::pop` (vm.cpp 135-141): drop the top slot. -/
def stackPop (s : List Value) : List Value := s.dropLast

/-- `VM::peek` (vm.cpp 143-146): `stackTop[-1 - distance]`.  `none` models
reading outside the live stack. -/
def stackPeek (s : List Value) (distance : Nat) : Option Value :=
  s.get? (s.length - 1 - distance)

/-- The outcome of executing a VM fragment: `ok`, a reported runtime error
(`VM::runtimeError` followed by returning `InterpretResult::RuntimeError`),
or `fault` — a failed `CL_ASSERT` (debug builds abort; release builds hit
undefined behavior).  A `fault` is not a reported runtime error. -/
inductive VMExec (α : Type) where
  | ok (a : α)
  | runtimeError (msg : String)
  | fault
deriving Repr, DecidableEq

/-- `Value::toObj` (value.cpp 75-80): asserts the value is an object and the
pointer is valid.  Returns the referenced heap object. -/
def valueToObj (heap : Heap) : Value → VMExec Obj
  | .Obj i =>
    match heap.get? i with
    | some o => .ok o
    | none => .fault
  | _ => .fault

/-- `Obj::toString` (object.cpp 10-14): `CL_ASSERT(type == String)` then a
cast.  Yields the string's characters. -/
def Obj.toStringChars : Obj → VMExec (List Char)
  | .objString chars _ => .ok chars
  | _ => .fault

/-- `Obj::to<ObjInstance>` / `Obj::toInstance` (object.hpp 95-102,
object.cpp 34-38): `CL_ASSERT(type == Instance)` then a cast.  The
narrowing itself faults on a non-instance in a debug build. -/
def Obj.toInstanceView : Obj → VMExec (ObjId × Table)
  | .objInstance klass fields => .ok (klass, fields)
  | _ => .fault

/-!
## String interning (object.cpp)

`takeString`/`copyString` look the contents up in the VM's intern table
(`VM::lookup`, by length, hash and bytes) and reuse the existing
`ObjString` when found; otherwise the new string is allocated and interned.
The table is modelled by content lookup over the heap's strings, which the
intern invariant (each content appears at most once) makes equivalent.
-/

/-- The id of an already-interned string with these contents, if any. -/
def lookupInterned (heap : Heap) (chars : List Char) : Option ObjId :=
  heap.findIdx? (fun o =>
    match o with
    | .objString c _ => c == chars
    | _ => false)

/-- `takeString` (object.cpp 219-227): return the interned string when the
contents already exist, else allocate (and intern) a new `ObjString`. -/
def takeString (heap : Heap) (chars : List Char) : Heap × ObjId :=
  match lookupInterned heap chars with
  | some i => (heap, i)
  | none => (heap ++ [Obj.objString chars (hashString chars)], heap.length)

/-- `copyString` (object.cpp 204-217) has the same dedup-or-allocate
behaviour once the bytes are copied. -/
def copyString (heap : Heap) (chars : List Char) : Heap × ObjId :=
  takeString heap chars

/-!
## Run-loop fragments (vm.cpp)
-/

/-- `isObjType` (object.cpp 163-166). -/
def isObjType (heap : Heap) (v : Value) (t : ObjType) : Bool :=
  match v with
  | .Obj i =>
    match heap.get? i with
    | some o => o.typeOf == t
    | none => false
  | _ => false

/-- `concatenate` (vm.cpp 348-364), as the source is written: both operand
reads use `vm.peek(0)`, so `a` and `b` are the same (top) string; the new
buffer is `a` then `b`, both strings are popped and the interned result
pushed. -/
def concatenate (heap : Heap) (stack : List Value) : VMExec (Heap × List Value) :=
  match stackPeek stack 0 with
  | none => .fault
  | some vb =>
    match valueToObj heap vb with
    | .ok ob =>
      match ob.toStringChars with
      | .ok b =>
        match stackPeek stack 0 with
        | none => .fault
        | some va =>
          match valueToObj heap va with
          | .ok oa =>
            match oa.toStringChars with
            | .ok a =>
              let chars := a ++ b
              let popped := stackPop (stackPop stack)
              let interned := takeString heap chars
              .ok (interned.1, stackPush popped (Value.Obj interned.2))
            | _ => .fault
          | _ => .fault
      | _ => .fault
    | _ => .fault

/-- The `OP_ADD` case of `VM::run` (vm.cpp 499-505): two strings
concatenate, otherwise `binaryOp` (vm.cpp 328-341) requires two numbers
and pushes their sum. -/
def opAdd (heap : Heap) (stack : List Value) : VMExec (Heap × List Value) :=
  match stackPeek stack 0, stackPeek stack 1 with
  | some v0, some v1 =>
    if isObjType heap v0 ObjType.String && isObjType heap v1 ObjType.String then
      concatenate heap stack
    else
      match v0, v1 with
      | .Number b, .Number a =>
        .ok (heap, stackPush (stackPop (stackPop stack)) (Value.Number (a + b)))
      | _, _ => .runtimeError "Operands must be numbers."
  | _, _ => .fault

/-- The `OP_EQUAL` case of `VM::run` (vm.cpp 629-634): `a = pop()`,
`b = pop()`, push `a == b`. -/
def opEqual (heap : Heap) (stack : List Value) : VMExec (List Value) :=
  match stackPeek stack 0, stackPeek stack 1 with
  | some a, some b =>
    .ok (stackPush (stackPop (stackPop stack)) (Value.Bool (valueEq heap a b)))
  | _, _ => .fault

/-- The value printed by `operator<<` for a `Value` (value.cpp 102-120,
object.cpp 131-161), restricted to the variants the claims exercise. -/
def printValue (heap : Heap) : Value → String
  | .Bool b => if b then "true" else "false"
  | .Nil => "nil"
  | .Number n => toString n
  | .Obj i =>
    match heap.get? i with
    | some (.objString chars _) => String.mk chars
    | _ => "<object>"

/-- `OP_SET_PROPERTY` (vm.cpp 576-591), as the source is written: the
receiver is narrowed with `toInstance()` *before* its type tag is compared
against `ObjType::Instance`, so a non-instance receiver faults in the
narrowing and the guard's runtime error is unreachable. -/
def opSetProperty (heap : Heap) (stack : List Value) (property : ObjStringRef) :
    VMExec (Heap × List Value) :=
  match stackPeek stack 1 with
  | none => .fault
  | some receiver =>
    match receiver with
    | .Obj i =>
      match heap.get? i with
      | none => .fault
      | some o =>
        match o.toInstanceView with
        | .ok view =>
          if o.typeOf != ObjType.Instance then
            .runtimeError "Object instances have fields."
          else
            match stackPeek stack 0 with
            | none => .fault
            | some value =>
              let fields := (view.2.set property value).2
              let heap := heap.set i (Obj.objInstance view.1 fields)
              .ok (heap, stackPush (stackPop (stackPop stack)) value)
        | _ => .fault
    | _ => .fault

/-- `VM::bindMethod` (vm.cpp 301-318): look the method up on the class,
report a runtime error when missing, else replace the receiver on top of
the stack with a freshly allocated `ObjBoundMethod`.  (`std::format`
interpolates the method and class names into the message.) -/
def bindMethod (heap : Heap) (stack : List Value) (klass : ObjId) (name : ObjStringRef) :
    VMExec (Heap × List Value) :=
  match heap.get? klass with
  | some (.objClass _ methods) =>
    match methods.get name with
    | none => .runtimeError "Unknown method on class"
    | some m =>
      match m, stackPeek stack 0 with
      | .Obj mId, some receiver =>
        let heap := heap ++ [Obj.objBoundMethod receiver mId]
        .ok (heap, stackPush (stackPop stack) (Value.Obj heap.length))
      | _, _ => .fault
  | _ => .fault

/-- `OP_GET_PROPERTY` (vm.cpp 592-616): the tag guard runs before the
narrowing, but only after `peek(0).toObj()` — a non-object receiver (for
example a number) faults in `toObj` before any guard. -/
def opGetProperty (heap : Heap) (stack : List Value) (property : ObjStringRef) :
    VMExec (Heap × List Value) :=
  match stackPeek stack 0 with
  | none => .fault
  | some receiver =>
    match receiver with
    | .Obj i =>
      match heap.get? i with
      | none => .fault
      | some o =>
        if o.typeOf != ObjType.Instance then
          .runtimeError "Object instances have properties."
        else
          match o.toInstanceView with
          | .ok view =>
            match view.2.get property with
            | some value => .ok (heap, stackPush (stackPop stack) value)
            | none => bindMethod heap stack view.1 property
          | _ => .fault
    | _ => .fault

/-- What `VM::invoke` decides to do next: call a field's value
(`callValue`) or dispatch to the class method (`invokeMethod`). -/
inductive InvokeStep where
  | callFieldValue (stack : List Value) (value : Value) (argCount : Nat)
  | callMethod (klass : ObjId) (method : ObjStringRef) (argCount : Nat)
deriving DecidableEq, Repr

/-- `VM::invoke` (vm.cpp 220-234), as the source is written: the receiver
`peek(argCount)` is narrowed with `to<ObjInstance>()` with *no* type guard
at all, so any non-instance receiver faults instead of producing a runtime
error.  The tail calls (`callValue` / `invokeMethod`) are returned as
data. -/
def invoke (heap : Heap) (stack : List Value) (method : ObjStringRef) (argCount : Nat) :
    VMExec InvokeStep :=
  match stackPeek stack argCount with
  | none => .fault
  | some receiver =>
    match receiver with
    | .Obj i =>
      match heap.get? i with
      | none => .fault
      | some o =>
        match o.toInstanceView with
        | .ok view =>
          match view.2.get method with
          | some value =>
            match (stack.length - argCount - 1 : Nat) with
            | slot => .ok (.callFieldValue (stack.set slot value) value argCount)
          | none => .ok (.callMethod view.1 method argCount)
        | _ => .fault
    | _ => .fault

/-- `OP_INHERIT` (vm.cpp 473-488): with the superclass at `peek(1)` and the
child class at `peek(0)`, check the superclass is a class, copy its methods
down with `Table::addAll`, then pop the superclass. -/
def opInherit (heap : Heap) (stack : List Value) : VMExec (Heap × List Value) :=
  match stackPeek stack 1 with
  | none => .fault
  | some superclass =>
    match valueToObj heap superclass with
    | .ok o =>
      if o.typeOf != ObjType.Class then
        .runtimeError "Can only inherit from a class."
      else
        match o, stackPeek stack 0 with
        | .objClass _ parentMethods, some (.Obj childId) =>
          match heap.get? childId with
          | some (.objClass childName childMethods) =>
            .ok (heap.set childId (Obj.objClass childName (childMethods.addAll parentMethods)),
              stackPop stack)
          | _ => .fault
        | _, _ => .fault
    | _ => .fault

/-!
## Upvalue closing (vm.cpp)
-/

/-- One entry of the VM's open-upvalue list: the object's identity and the
stack slot its `location` points at.  The list head is the upvalue with the
greatest location (the list is sorted by decreasing stack address). -/
structure OpenUV where
  uvId : Nat
  location : Nat
deriving DecidableEq, Repr

/-- An upvalue after closing: its live value has been copied into `closed`
and `location` redirected to that field. -/
structure ClosedUV where
  uvId : Nat
  closed : Value
deriving DecidableEq, Repr

/-- `VM::closeUpvalues` (vm.cpp 278-288): pop open upvalues from the head
of the list while `location >= last`, copying `*location` into `closed`.
Returns the upvalues closed by this call and the remaining open list. -/
def closeUpvalues (stack : List Value) (last : Nat) :
    List OpenUV → List ClosedUV × List OpenUV
  | [] => ([], [])
  | u :: rest =>
    if last ≤ u.location then
      let r := closeUpvalues stack last rest
      (⟨u.uvId, (stack.get? u.location).getD Value.Nil⟩ :: r.1, r.2)
    else ([], u :: rest)

/-- The `OP_CLOSE_UPVALUE` case (vm.cpp 447-450): close at `stackTop - 1`
(the top slot's index) and pop it. -/
def opCloseUpvalue (stack : List Value) (openUpvalues : List OpenUV) :
    List Value × List ClosedUV × List OpenUV :=
  (stackPop stack, closeUpvalues stack (stack.length - 1) openUpvalues)

/-- The upvalue-closing step of `OP_RETURN` (vm.cpp 451-466): close at the
returning frame's base slot. -/
def opReturnCloseUpvalues (stack : List Value) (frameSlots : Nat)
    (openUpvalues : List OpenUV) : List ClosedUV × List OpenUV :=
  closeUpvalues stack frameSlots openUpvalues

/-!
## VM state, native registration and the interpret prologue (vm.cpp)
-/

/-- Sequencing for `VMExec`: a runtime error or fault short-circuits. -/
def VMExec.bind {α β : Type} : VMExec α → (α → VMExec β) → VMExec β
  | .ok a, f => f a
  | .runtimeError m, _ => .runtimeError m
  | .fault, _ => .fault

instance : Monad VMExec where
  pure := .ok
  bind := VMExec.bind

/-- `CallFrame` from vm.hpp: `slots` is the stack index of the callee's
local 0 (`frame->slots` as an offset into the value stack). -/
structure CallFrame where
  closure : ObjId
  ip : Nat
  slots : Nat
deriving DecidableEq, Repr

/-- The VM fields the claims touch (vm.hpp 106-128). -/
structure VMState where
  stack : List Value
  heap : Heap
  globals : Table
  frames : List CallFrame
  loadedNativeFunctions : Bool
deriving DecidableEq, Repr

/-- A freshly constructed VM: empty stack, no objects, no globals, no
frames, natives not yet loaded. -/
def VMState.fresh : VMState := ⟨[], [], Table.empty, [], false⟩

/-- `VM::defineNative` (vm.cpp 86-96): push the interned name, allocate and
push the native, then `globals.set(stack[0].as.obj->toString(), stack[1])`
— the key and value are read from absolute slots 0 and 1, not from the two
pushed slots. -/
def defineNative (s : VMState) (name : List Char) (fn : Nat) : VMExec VMState :=
  let cs := copyString s.heap name
  let s := { s with heap := cs.1, stack := stackPush s.stack (Value.Obj cs.2) }
  let nativeId := s.heap.length
  let s := { s with heap := s.heap ++ [Obj.objNative fn],
                    stack := stackPush s.stack (Value.Obj nativeId) }
  match s.stack.get? 0, s.stack.get? 1 with
  | some (.Obj k), some v =>
    match s.heap.get? k with
    | some (.objString _ h) => .ok { s with globals := (s.globals.set ⟨k, h⟩ v).2 }
    | _ => .fault
  | _, _ => .fault

/-- `VM::loadNativeFunctions` (vm.cpp 320-323): registers `clock` (its host
function is an opaque id here). -/
def loadNativeFunctions (s : VMState) : VMExec VMState :=
  defineNative s "clock".toList 0

/-- `VM::call` (vm.cpp 148-165): arity check, frame-stack capacity check,
then a new frame whose `slots = stackTop - argCount - 1`. -/
def call (s : VMState) (closureId : ObjId) (argCount : Nat) : VMExec VMState :=
  match s.heap.get? closureId with
  | some (.objClosure fnId _) =>
    match s.heap.get? fnId with
    | some (.objFunction arity _ _) =>
      if argCount ≠ arity then .runtimeError "Expected arguments but got mismatch."
      else if s.frames.length = 64 then .runtimeError "Stack overflow."
      else .ok { s with frames := s.frames ++ [⟨closureId, 0, s.stack.length - argCount - 1⟩] }
    | _ => .fault
  | _ => .fault

/-- The prologue of `VM::interpret` (vm.cpp 653-684): load natives once and
intern `init`, allocate the compiled script function, push it to guard it
from the GC, wrap it in a closure, swap the closure onto the stack, and
call it with zero arguments. -/
def interpretPrologue (s0 : VMState) : VMExec VMState := do
  let s1 ←
    if !s0.loadedNativeFunctions then do
      let s ← loadNativeFunctions s0
      let ci := copyString s.heap "init".toList
      pure { s with loadedNativeFunctions := true, heap := ci.1 }
    else pure s0
  let fnId := s1.heap.length
  let s2 := { s1 with heap := s1.heap ++ [Obj.objFunction 0 0 none] }
  let s3 := { s2 with stack := stackPush s2.stack (Value.Obj fnId) }
  let closureId := s3.heap.length
  let s4 := { s3 with heap := s3.heap ++ [Obj.objClosure fnId []] }
  let s5 := { s4 with stack := stackPush (stackPop s4.stack) (Value.Obj closureId) }
  call s5 closureId 0

/-- `OP_RETURN` over the VM state (vm.cpp 451-466), upvalue closing aside:
pop the result, drop the frame; when no frame remains pop once more and
finish, otherwise trim the stack to the frame's base and push the result.
Returns `(state, finished)`. -/
def opReturn (s : VMState) : VMExec (VMState × Bool) :=
  match stackPeek s.stack 0 with
  | none => .fault
  | some result =>
    match s.frames.getLast? with
    | none => .fault
    | some lastFrame =>
      let stack1 := stackPop s.stack
      let frames := s.frames.dropLast
      if frames.length = 0 then
        .ok ({ s with stack := stackPop stack1, frames := frames }, true)
      else
        .ok ({ s with stack := stack1.take lastFrame.slots ++ [result], frames := frames }, false)

/-!
## Garbage collector (gc.cpp, memory.cpp)

Objects carry their id, their outgoing references (what `blackenObj`
scans), and the mark bit.  The intern table is the `Table` of gc.hpp,
keyed by string object id.
-/

/-- A GC-tracked object: id, outgoing references, mark bit. -/
structure GCObj where
  id : ObjId
  refs : List ObjId
  isMarked : Bool
deriving DecidableEq, Repr

/-- The GC fields the claims touch (gc.hpp 39-45): the tracked object list
and the interned-strings table. -/
structure GCState where
  objects : List GCObj
  strings : Table
deriving DecidableEq, Repr

/-- `markObject` (memory.cpp): set the mark bit of object `i`. -/
def gcMark (objects : List GCObj) (i : ObjId) : List GCObj :=
  objects.map (fun o => if o.id = i then { o with isMarked := true } else o)

/-- Whether object `i` is currently marked. -/
def isMarkedIn (objects : List GCObj) (i : ObjId) : Bool :=
  objects.any (fun o => o.id = i && o.isMarked)

/-- `GC::traceReferences` + `blackenObj` (gc.cpp 134-140, memory.cpp): pop
a gray object, mark and enqueue its unmarked children, until the worklist
empties.  Fuelled; the fuel used below always suffices. -/
def gcTraceLoop : Nat → List GCObj → List ObjId → List GCObj
  | 0, objects, _ => objects
  | _ + 1, objects, [] => objects
  | fuel + 1, objects, i :: gray =>
    let childRefs := ((objects.find? (fun o => o.id = i)).map GCObj.refs).getD []
    let fresh := childRefs.filter (fun c => !isMarkedIn objects c)
    gcTraceLoop fuel (fresh.foldl gcMark objects) (gray ++ fresh)

/-- `markRoots` followed by `traceReferences`: mark every root gray, then
blacken until the gray stack is empty. -/
def markRootsAndTrace (roots : List ObjId) (s : GCState) : GCState :=
  let objects := roots.foldl gcMark s.objects
  let fuel := (s.objects.length + roots.length + 1) * (s.objects.length + 1)
  { s with objects := gcTraceLoop fuel objects roots }

/-- `GC::sweep` (gc.cpp 143-168): unmarked objects are unlinked and freed;
marked objects have their mark cleared for the next cycle. -/
def gcSweep (objects : List GCObj) : List GCObj :=
  (objects.filter (·.isMarked)).map (fun o => { o with isMarked := false })

/-- `GC::garbageCollect` (gc.cpp 95-116), as the source is written: mark
roots, trace, then sweep.  The line `strings.removeUnmarked();` between
tracing and sweeping is commented out in the source, so the intern table
is left untouched by a collection. -/
def garbageCollect (roots : List ObjId) (s : GCState) : GCState :=
  let s1 := markRootsAndTrace roots s
  { s1 with objects := gcSweep s1.objects }

/-- Modelled from the spec, for contrast: the collection pipeline §4.4
describes, with the intern table weakened between trace and sweep ("after
marking and tracing but before sweep, the intern table removes entries
whose String is still white"). -/
def garbageCollectAsSpecified (roots : List ObjId) (s : GCState) : GCState :=
  let s1 := markRootsAndTrace roots s
  let strings := s1.strings.removeUnmarked (isMarkedIn s1.objects)
  { s1 with objects := gcSweep s1.objects, strings := strings }

/-!
## Compiler fragments (compiler.cpp, token.hpp, pratt.hpp, chunk.hpp)
-/

/-- `TokenType` from token.hpp. -/
inductive TokenType where
  | LeftParen | RightParen | LeftBrace | RightBrace
  | Comma | Dot | Semicolon
  | Plus | Minus | Star | Slash
  | Bang | BangEqual | Equal | EqualEqual
  | Less | LessEqual | Greater | GreaterEqual
  | Identifier | String | Number
  | And | Or
  | If | Else | While | For | Return
  | Class | Fun | Var | Print
  | Super | This | Nil | True | False
  | Error | Eof
deriving DecidableEq, Repr

/-- `Precedence` from pratt.hpp. -/
inductive Precedence where
  | PREC_NONE | PREC_ASSIGNMENT | PREC_OR | PREC_AND | PREC_EQUALITY
  | PREC_COMPARISON | PREC_TERM | PREC_FACTOR | PREC_UNARY | PREC_CALL
  | PREC_PRIMARY
deriving DecidableEq, Repr

/-- The named rule functions a table row can hold in its first position
(compiler.cpp 1136-1185); Lean keyword clashes get a trailing mark. -/
inductive PrefixFn where
  | grouping | unary | variable_ | string_ | number_ | this_ | literal
deriving DecidableEq, Repr

/-- The named rule functions a table row can hold in its second position. -/
inductive InfixFn where
  | call | dot | binary | andOperator | orOperator
deriving DecidableEq, Repr

/-- `ParseRule` from pratt.hpp (fields `prefix`, `infix`, `precedence`);
`none` models a null function pointer. -/
structure ParseRule where
  prefixFn : Option PrefixFn
  infixFn : Option InfixFn
  precedence : Precedence
deriving DecidableEq, Repr

/-- The `rules` table (compiler.cpp 1136-1185) via `getRule`, transcribed
row by row. -/
def getRule : TokenType → ParseRule
  | .LeftParen => ⟨some .grouping, some .call, .PREC_CALL⟩
  | .RightParen => ⟨none, none, .PREC_NONE⟩
  | .LeftBrace => ⟨none, none, .PREC_NONE⟩
  | .RightBrace => ⟨none, none, .PREC_NONE⟩
  | .Comma => ⟨none, none, .PREC_NONE⟩
  | .Dot => ⟨none, some .dot, .PREC_CALL⟩
  | .Semicolon => ⟨none, none, .PREC_NONE⟩
  | .Plus => ⟨none, some .binary, .PREC_TERM⟩
  | .Minus => ⟨some .unary, some .binary, .PREC_TERM⟩
  | .Star => ⟨none, some .binary, .PREC_FACTOR⟩
  | .Slash => ⟨none, some .binary, .PREC_FACTOR⟩
  | .Bang => ⟨some .unary, none, .PREC_NONE⟩
  | .BangEqual => ⟨none, some .binary, .PREC_EQUALITY⟩
  | .Equal => ⟨none, none, .PREC_NONE⟩
  | .EqualEqual => ⟨none, some .binary, .PREC_EQUALITY⟩
  | .Less => ⟨none, some .binary, .PREC_COMPARISON⟩
  | .LessEqual => ⟨none, some .binary, .PREC_COMPARISON⟩
  | .Greater => ⟨none, some .binary, .PREC_COMPARISON⟩
  | .GreaterEqual => ⟨none, some .binary, .PREC_COMPARISON⟩
  | .Identifier => ⟨some .variable_, none, .PREC_NONE⟩
  | .String => ⟨some .string_, none, .PREC_NONE⟩
  | .Number => ⟨some .number_, none, .PREC_NONE⟩
  | .And => ⟨none, some .andOperator, .PREC_AND⟩
  | .Or => ⟨none, some .orOperator, .PREC_OR⟩
  | .If => ⟨none, none, .PREC_NONE⟩
  | .Else => ⟨none, none, .PREC_NONE⟩
  | .While => ⟨none, none, .PREC_NONE⟩
  | .For => ⟨none, none, .PREC_NONE⟩
  | .Return => ⟨none, none, .PREC_NONE⟩
  | .Class => ⟨none, none, .PREC_NONE⟩
  | .Fun => ⟨none, none, .PREC_NONE⟩
  | .Var => ⟨none, none, .PREC_NONE⟩
  | .Print => ⟨none, none, .PREC_NONE⟩
  | .Super => ⟨none, none, .PREC_NONE⟩
  | .This => ⟨some .this_, none, .PREC_NONE⟩
  | .Nil => ⟨some .literal, none, .PREC_NONE⟩
  | .True => ⟨some .literal, none, .PREC_NONE⟩
  | .False => ⟨some .literal, none, .PREC_NONE⟩
  | .Error => ⟨none, none, .PREC_NONE⟩
  | .Eof => ⟨none, none, .PREC_NONE⟩

/-- The prefix-dispatch step of `parsePrecedence` (compiler.cpp 314-327):
after `parser.advance()`, the previous token's prefix rule runs; when the
rule table holds no prefix function the parser reports "Expected an
expression." and returns. -/
def parsePrecedencePrefixStep (previous : TokenType) : Option String :=
  match (getRule previous).prefixFn with
  | none => some "Expected an expression."
  | some _ => none

/-- `FunctionType` from compiler.cpp 45-55. -/
inductive FunctionType where
  | Function | Method | Initializer | Script
deriving DecidableEq, Repr

/-- Opcode byte values, in the declaration order of chunk.hpp 10-65. -/
def OP_CONSTANT : Nat := 0
def OP_ADD : Nat := 1
def OP_SUBTRACT : Nat := 2
def OP_MULTIPLY : Nat := 3
def OP_DIVIDE : Nat := 4
def OP_NOT : Nat := 5
def OP_NEGATE : Nat := 6
def OP_PRINT : Nat := 7
def OP_JUMP : Nat := 8
def OP_JUMP_IF_FALSE : Nat := 9
def OP_LOOP : Nat := 10
def OP_CALL : Nat := 11
def OP_INVOKE : Nat := 12
def OP_SUPER_INVOKE : Nat := 13
def OP_CLOSURE : Nat := 14
def OP_CLOSE_UPVALUE : Nat := 15
def OP_POP : Nat := 16
def OP_GET_LOCAL : Nat := 17
def OP_GET_GLOBAL : Nat := 18
def OP_DEFINE_GLOBAL : Nat := 19
def OP_GET_UPVALUE : Nat := 20
def OP_SET_UPVALUE : Nat := 21
def OP_SET_LOCAL : Nat := 22
def OP_SET_GLOBAL : Nat := 23
def OP_SET_PROPERTY : Nat := 24
def OP_GET_PROPERTY : Nat := 25
def OP_RETURN : Nat := 26
def OP_CLASS : Nat := 27
def OP_GET_SUPER : Nat := 28
def OP_INHERIT : Nat := 29
def OP_METHOD : Nat := 30
def OP_EQUAL : Nat := 31
def OP_GREATER : Nat := 32
def OP_LESS : Nat := 33
def OP_NIL : Nat := 34
def OP_TRUE : Nat := 35
def OP_FALSE : Nat := 36

/-- `Compiler::emitReturn` (compiler.cpp 283-294): the implicit return
epilogue — `GET_LOCAL 0; RETURN` for initializers, `NIL; RETURN`
otherwise. -/
def emitReturn (type : FunctionType) : List Nat :=
  (if type = .Initializer then [OP_GET_LOCAL, 0] else [OP_NIL]) ++ [OP_RETURN]

/-- The outcome of `Compiler::returnStatement`: the errors reported and the
bytes emitted. -/
structure ReturnStmtResult where
  errors : List String
  emitted : List Nat
deriving DecidableEq, Repr

/-- `Compiler::returnStatement` (compiler.cpp 858-873), as the source is
written: *any* `return` errors at top level and *any* `return` errors
inside an initializer, before the statement's shape is even looked at.
`nextIsSemicolon` is `parser.match(Semicolon)`; `exprCode` stands for the
bytes `expression()` emits in the value-returning branch. -/
def returnStatement (type : FunctionType) (nextIsSemicolon : Bool)
    (exprCode : List Nat) : ReturnStmtResult :=
  let errors :=
    if type = .Script then ["Cannot return from top-level code."]
    else if type = .Initializer then ["Cannot return from an initializer."]
    else []
  if nextIsSemicolon then ⟨errors, emitReturn type⟩
  else ⟨errors, exprCode ++ [OP_RETURN]⟩

/-- `Upvalue` from compiler.cpp 38-41. -/
structure UpvalueEntry where
  index : Nat
  isLocal : Bool
deriving DecidableEq, Repr

/-- The dedup scan of `Compiler::addUpvalue` (compiler.cpp 366-370), as the
source is written: on a hit it returns `upvalues[i].index` — the stored
capture index — not the position `i` of the entry. -/
def addUpvalueFind : List UpvalueEntry → Nat → Bool → Option Nat
  | [], _, _ => none
  | u :: rest, index, isLocal =>
    if u.index = index && u.isLocal = isLocal then some u.index
    else addUpvalueFind rest index isLocal

/-- `Compiler::addUpvalue` (compiler.cpp 359-381): dedup scan, capacity
check against 256, else append and return the old `upvalueCount`.  The
upvalue table is the list of its first `upvalueCount` entries; the result
is `(returned operand, table, errors)`. -/
def addUpvalue (upvalues : List UpvalueEntry) (index : Nat) (isLocal : Bool) :
    Nat × List UpvalueEntry × List String :=
  match addUpvalueFind upvalues index isLocal with
  | some r => (r, upvalues, [])
  | none =>
    if upvalues.length = 256 then
      (0, upvalues, ["Too many closure variables in function."])
    else
      (upvalues.length, upvalues ++ [⟨index, isLocal⟩], [])

/-!
## Example inputs for the claims
-/

/-- The three string constants the compiler interns for the program
`print "ab" + "cd" == "abcd";`: "ab" (id 0), "cd" (id 1), "abcd" (id 2). -/
def concatHeap : Heap :=
  [Obj.objString "ab".toList (hashString "ab".toList),
   Obj.objString "cd".toList (hashString "cd".toList),
   Obj.objString "abcd".toList (hashString "abcd".toList)]

/-- The body of `print "ab" + "cd" == "abcd";`: `OP_ADD` on the two pushed
strings, `OP_CONSTANT` for "abcd", `OP_EQUAL`, then the value `OP_PRINT`
pops and writes. -/
def concatExampleRun : VMExec String := do
  let r ← opAdd concatHeap [Value.Obj 0, Value.Obj 1]
  let s ← opEqual r.1 (stackPush r.2 (Value.Obj 2))
  match stackPeek s 0 with
  | some v => pure (printValue r.1 v)
  | none => VMExec.fault

/-- The key of the single method `greet`, with its FNV-1a hash. -/
def greetKey : ObjStringRef := ⟨0, hashString "greet".toList⟩

/-- A parent class's methods table holding only `greet`: capacity 8, count
1, the entry at slot `hash("greet") % 8 = 2`. -/
def greetMethods : Table := (Table.empty.set greetKey (Value.Obj 3)).2

/-- The heap for `class A { greet... } class B < A {}` at `OP_INHERIT`:
"greet" (0), "A" (1), "B" (2), the greet closure (3), class A (4),
class B (5). -/
def inheritHeap : Heap :=
  [Obj.objString "greet".toList (hashString "greet".toList),
   Obj.objString "A".toList (hashString "A".toList),
   Obj.objString "B".toList (hashString "B".toList),
   Obj.objClosure 0 [],
   Obj.objClass 1 greetMethods,
   Obj.objClass 2 Table.empty]

/-- The intern-table key of the string "abc". -/
def abcKey : ObjStringRef := ⟨0, hashString "abc".toList⟩

/-- A GC state with one unreachable string object (id 0, unmarked) that the
intern table holds as a key. -/
def gcExample : GCState :=
  ⟨[⟨0, [], false⟩], (Table.empty.set abcKey Value.Nil).2⟩

/-- A heap with a class name (id 0) and a class object (id 1). -/
def classHeap : Heap := [Obj.objString "A".toList (hashString "A".toList),
  Obj.objClass 0 Table.empty]

/-- The globals key for `clock`. -/
def clockKey : ObjStringRef := ⟨0, hashString "clock".toList⟩

/-!
## Claims
-/

/-- Claim C1: on `print "ab" + "cd" == "abcd";` the source's `concatenate`
reads `peek(0)` for both operands, so `OP_ADD` pushes the interned string
"cdcd" (the top operand doubled), and the program prints `false`, not
`true`. -/
theorem C1_concatenate_doubles_top :
    opAdd concatHeap [Value.Obj 0, Value.Obj 1]
      = VMExec.ok (concatHeap ++ [Obj.objString "cdcd".toList (hashString "cdcd".toList)],
          [Value.Obj 3])
    ∧ concatExampleRun = VMExec.ok "false" := by
  exact ⟨rfl, rfl⟩

/-- Claim C2: the rules table row for `super` holds no prefix and no infix
function, so `parsePrecedence` on a `super` token reports "Expected an
expression." — `super.greet()` cannot compile. -/
theorem C2_super_has_no_rule :
    getRule TokenType.Super = ⟨none, none, Precedence.PREC_NONE⟩
    ∧ parsePrecedencePrefixStep TokenType.Super = some "Expected an expression." :=
  ⟨rfl, rfl⟩

/-- Claim C3 counterexample: a class object compared with itself yields
`false` under `Value::operator==`, though both sides reference the
identical heap object. -/
theorem C3_self_compare_false :
    valueEq classHeap (Value.Obj 1) (Value.Obj 1) = false := rfl

/-- Claim C3 (amended): two object values compare equal exactly when both
are Strings of equal byte contents; any comparison in which either object
is not a String yields `false`, identity notwithstanding. -/
theorem C3_object_equality (heap : Heap) (i j : ObjId) (oi oj : Obj)
    (hi : heap.get? i = some oi) (hj : heap.get? j = some oj) :
    valueEq heap (Value.Obj i) (Value.Obj j) = true ↔
      ∃ ci hci cj hcj, oi = Obj.objString ci hci ∧ oj = Obj.objString cj hcj ∧ ci = cj := by
  simp only [valueEq, hi, hj]
  cases oi <;> cases oj <;> simp [Obj.typeOf]
  intro h
  exact congrArg List.length h

/-- Claim C3 witness: the amended statement at a one-string heap. -/
theorem C3_object_equality_witness :
    (valueEq [Obj.objString ['a'] 97] (Value.Obj 0) (Value.Obj 0) = true ↔
      ∃ ci hci cj hcj, Obj.objString ['a'] 97 = Obj.objString ci hci
        ∧ Obj.objString ['a'] 97 = Obj.objString cj hcj ∧ ci = cj) :=
  C3_object_equality [Obj.objString ['a'] 97] 0 0 _ _ rfl rfl

/-- Claim C4: `Table::addAll` iterates entry slots `0 ≤ i < other.count_`
instead of the whole capacity, so a parent method stored at a slot at or
past `count_` is never copied: here `greet` sits at slot 2 of 8 with
`count_ = 1`, `OP_INHERIT` leaves the child's table empty, and the child
resolves no `greet`. -/
theorem C4_inherit_misses_methods :
    greetMethods.get greetKey = some (Value.Obj 3)
    ∧ greetMethods.count = 1
    ∧ opInherit inheritHeap [Value.Obj 4, Value.Obj 5]
        = VMExec.ok (inheritHeap, [Value.Obj 4])
    ∧ (Table.empty.addAll greetMethods).get greetKey = none := by
  exact ⟨rfl, rfl, rfl, rfl⟩

/-- Claim C5: `GC::garbageCollect` never weakens the intern table (the
`strings.removeUnmarked()` call is commented out): after collecting, the
unreachable string object 0 is swept while the intern table still holds its
key.  The pipeline the spec describes would have removed the entry. -/
theorem C5_intern_entry_outlives_sweep :
    (garbageCollect [] gcExample).objects = []
    ∧ (garbageCollect [] gcExample).strings.get abcKey = some Value.Nil
    ∧ (garbageCollectAsSpecified [] gcExample).strings.get abcKey = none := by
  exact ⟨rfl, rfl, rfl⟩

/-- Claim C6: a non-instance receiver does not produce a reported runtime
error — `OP_SET_PROPERTY` narrows with `toInstance()` before its guard and
faults on a class receiver; `VM::invoke` has no guard at all and faults on
a number receiver; `OP_GET_PROPERTY` faults on a number receiver inside
`toObj()` before its guard (only an object receiver reaches it). -/
theorem C6_receiver_guard_faults :
    opSetProperty classHeap [Value.Obj 1, Value.Number 1] ⟨0, 0⟩ = VMExec.fault
    ∧ invoke classHeap [Value.Number 5] ⟨0, 0⟩ 0 = VMExec.fault
    ∧ opGetProperty classHeap [Value.Number 5] ⟨0, 0⟩ = VMExec.fault
    ∧ opGetProperty classHeap [Value.Obj 1] ⟨0, 0⟩
        = VMExec.runtimeError "Object instances have properties." := by
  exact ⟨rfl, rfl, rfl, rfl⟩

/-- Claim C7 counterexample: a bare `return;` inside an initializer is
rejected with "Cannot return from an initializer." — it is not accepted. -/
theorem C7_bare_return_in_initializer_errors :
    (returnStatement FunctionType.Initializer true []).errors
      = ["Cannot return from an initializer."] := rfl

/-- Claim C7 (amended): `returnStatement` errors exactly at top level and
inside initializers — any `return`, bare or valued, in either context; in
functions and methods a bare `return;` is accepted and emits the implicit
epilogue; the initializer epilogue is `GET_LOCAL 0; RETURN`. -/
theorem C7_return_statement_errors (type : FunctionType) (nextIsSemicolon : Bool)
    (exprCode : List Nat) :
    ((returnStatement type nextIsSemicolon exprCode).errors ≠ []
      ↔ (type = FunctionType.Script ∨ type = FunctionType.Initializer))
    ∧ returnStatement FunctionType.Function true exprCode = ⟨[], [OP_NIL, OP_RETURN]⟩
    ∧ returnStatement FunctionType.Method true exprCode = ⟨[], [OP_NIL, OP_RETURN]⟩
    ∧ returnStatement FunctionType.Initializer true exprCode
        = ⟨["Cannot return from an initializer."], [OP_GET_LOCAL, 0, OP_RETURN]⟩
    ∧ emitReturn FunctionType.Initializer = [OP_GET_LOCAL, 0, OP_RETURN] := by
  refine ⟨?_, rfl, rfl, rfl, rfl⟩
  cases type <;> simp [returnStatement, emitReturn] <;> cases nextIsSemicolon <;> simp

/-- Claim C8: `addUpvalue` deduplicates by `(index, is_local)` but returns
the stored capture index rather than the entry's position: after capturing
local slot 5 as upvalue 0, a second capture of slot 5 returns 5 — not 0 —
an operand at or past the function's upvalue count of 1. -/
theorem C8_duplicate_capture_returns_slot :
    addUpvalue [] 5 true = (0, [⟨5, true⟩], [])
    ∧ addUpvalue [⟨5, true⟩] 5 true = (5, [⟨5, true⟩], [])
    ∧ ¬((addUpvalue [⟨5, true⟩] 5 true).1 < ([(⟨5, true⟩ : UpvalueEntry)]).length) := by
  exact ⟨rfl, rfl, by decide⟩

/-- Claim C9: with the open-upvalue list sorted by strictly decreasing
location, `closeUpvalues last` removes exactly the upvalues whose location
is at or above `last`, closing each over its current stack value, and
leaves every upvalue below `last` open and unchanged; `OP_CLOSE_UPVALUE`
closes at the top slot's index and `OP_RETURN` at the frame's base slot. -/
theorem C9_closeUpvalues_boundary (stack : List Value) (last : Nat) (l : List OpenUV)
    (hsorted : l.Pairwise (fun a b => b.location < a.location)) :
    closeUpvalues stack last l
      = ((l.filter (fun u => last ≤ u.location)).map
           (fun u => ⟨u.uvId, (stack.get? u.location).getD Value.Nil⟩),
         l.filter (fun u => u.location < last))
    ∧ opCloseUpvalue stack l = (stackPop stack, closeUpvalues stack (stack.length - 1) l)
    ∧ opReturnCloseUpvalues stack last l = closeUpvalues stack last l := by
  refine ⟨?_, rfl, rfl⟩
  induction l with
  | nil => simp [closeUpvalues]
  | cons u rest ih =>
    rw [List.pairwise_cons] at hsorted
    obtain ⟨hhead, htail⟩ := hsorted
    by_cases h : last ≤ u.location
    · have hnot : ¬(u.location < last) := by omega
      simp [closeUpvalues, h, hnot, ih htail]
    · have hlt : u.location < last := by omega
      have hrest₁ : rest.filter (fun v => decide (last ≤ v.location)) = [] := by
        apply List.filter_eq_nil_iff.mpr
        intro v hv
        have := hhead v hv
        simp only [decide_eq_true_eq]
        omega
      have hrest₂ : rest.filter (fun v => decide (v.location < last)) = rest := by
        apply List.filter_eq_self.mpr
        intro v hv
        have := hhead v hv
        simp only [decide_eq_true_eq]
        omega
      simp [closeUpvalues, h, hlt, hrest₁, hrest₂]

/-- Claim C9 witness: three sorted open upvalues at slots 2, 1, 0 with
cutoff 1 — the two at or above the cutoff close over their stack values,
the one below stays open. -/
theorem C9_closeUpvalues_boundary_witness :
    ([⟨7, 2⟩, ⟨8, 1⟩, ⟨9, 0⟩] : List OpenUV).Pairwise (fun a b => b.location < a.location)
    ∧ (closeUpvalues [Value.Number 10, Value.Number 20, Value.Number 30] 1
          [⟨7, 2⟩, ⟨8, 1⟩, ⟨9, 0⟩]
        = ((([⟨7, 2⟩, ⟨8, 1⟩, ⟨9, 0⟩] : List OpenUV).filter (fun u => 1 ≤ u.location)).map
             (fun u => ⟨u.uvId,
               (([Value.Number 10, Value.Number 20, Value.Number 30].get? u.location)).getD
                 Value.Nil⟩),
           ([⟨7, 2⟩, ⟨8, 1⟩, ⟨9, 0⟩] : List OpenUV).filter (fun u => u.location < 1))
      ∧ opCloseUpvalue [Value.Number 10, Value.Number 20, Value.Number 30]
          [⟨7, 2⟩, ⟨8, 1⟩, ⟨9, 0⟩]
        = (stackPop [Value.Number 10, Value.Number 20, Value.Number 30],
           closeUpvalues [Value.Number 10, Value.Number 20, Value.Number 30]
             ([Value.Number 10, Value.Number 20, Value.Number 30].length - 1)
             [⟨7, 2⟩, ⟨8, 1⟩, ⟨9, 0⟩])
      ∧ opReturnCloseUpvalues [Value.Number 10, Value.Number 20, Value.Number 30] 1
          [⟨7, 2⟩, ⟨8, 1⟩, ⟨9, 0⟩]
        = closeUpvalues [Value.Number 10, Value.Number 20, Value.Number 30] 1
            [⟨7, 2⟩, ⟨8, 1⟩, ⟨9, 0⟩]) :=
  ⟨by decide,
   C9_closeUpvalues_boundary [Value.Number 10, Value.Number 20, Value.Number 30] 1
     [⟨7, 2⟩, ⟨8, 1⟩, ⟨9, 0⟩] (by decide)⟩

/-- Claim C10: registering `clock` on a fresh VM pushes the interned name
(slot 0) and the native (slot 1), binds the name to the native in the
globals, and leaves the stack two deeper; the interpret prologue then
places the script frame's base at slot 2, above both, and the script's
final implicit return trims the stack back to exactly those two slots. -/
theorem C10_defineNative_leaves_two_slots :
    ∃ s1 s2,
      defineNative VMState.fresh "clock".toList 0 = VMExec.ok s1
      ∧ s1.stack = [Value.Obj 0, Value.Obj 1]
      ∧ s1.stack.length = VMState.fresh.stack.length + 2
      ∧ s1.heap.get? 0 = some (Obj.objString "clock".toList (hashString "clock".toList))
      ∧ s1.heap.get? 1 = some (Obj.objNative 0)
      ∧ s1.globals.get clockKey = some (Value.Obj 1)
      ∧ interpretPrologue VMState.fresh = VMExec.ok s2
      ∧ s2.stack = [Value.Obj 0, Value.Obj 1, Value.Obj 4]
      ∧ s2.frames.map CallFrame.slots = [2]
      ∧ s2.globals.get clockKey = some (Value.Obj 1)
      ∧ opReturn { s2 with stack := stackPush s2.stack Value.Nil }
          = VMExec.ok ({ s2 with stack := [Value.Obj 0, Value.Obj 1], frames := [] }, true) := by
  exact ⟨_, _, rfl, rfl, rfl, rfl, rfl, rfl, rfl, rfl, rfl, rfl, rfl⟩

end Cxxlox
